import Mathlib

/-!
# IdentityHub backend — verification of the OAuth / API-key core

Shallow embedding of the security-sensitive core of the IdentityHub
backend (OAuth CSRF-state ledger, token lifecycle, API-key issuance and
validation, session tokens, NHI-finding creation), with theorems checking
the natural-language specification against the code.

Conventions:
- MongoDB collections are lists of records; `findOneAndDelete`, `find?`,
  `deleteMany`, `insertOne` are modelled as the corresponding list
  operations in document order.
- Timestamps are `Nat` epoch milliseconds (seconds for JWT claims).
- Asynchronous JS functions that can `throw` are modelled with `Except`;
  a `try/catch` wrapper is modelled by matching on the `Except` result.
-/

namespace IdentityHub

/-! ## OAuth State Ledger (services/oauth-state.service.js)

`createState(userId, state, expirationMinutes)` deletes all states of the
user and inserts one fresh record; `validateAndDeleteState(userId, state)`
is a single `findOneAndDelete` on
`userId == ? AND state == ? AND expiresAt > now`. -/

structure OAuthStateRec where
  userId    : String
  state     : String
  expiresAt : Nat
  createdAt : Nat
deriving DecidableEq, Repr

abbrev OAuthStateDb := List OAuthStateRec

/-- The Mongo filter of `validateAndDeleteState`:
`{ userId, state, expiresAt: { $gt: new Date() } }`. -/
def stateMatches (userId state : String) (now : Nat) (r : OAuthStateRec) : Bool :=
  r.userId == userId && r.state == state && decide (now < r.expiresAt)

/-- `collection.findOneAndDelete(filter)`: removes the first document
matching the filter and returns it; the pair is (found document, updated
collection). -/
def findOneAndDelete (p : OAuthStateRec → Bool) :
    OAuthStateDb → Option OAuthStateRec × OAuthStateDb
  | [] => (none, [])
  | r :: rest =>
    if p r then (some r, rest)
    else
      let res := findOneAndDelete p rest
      (res.1, r :: res.2)

/-- `createState(userId, state, expirationMinutes = 5)`:
computes `expiresAt = Date.now() + expirationMinutes*60*1000`, runs
`deleteMany({ userId })`, then `insertOne({ userId, state, expiresAt,
createdAt: new Date() })`. -/
def createState (db : OAuthStateDb) (userId state : String)
    (expirationMinutes : Nat) (now : Nat) : OAuthStateDb :=
  let expiresAt := now + expirationMinutes * 60 * 1000
  (db.filter fun r => r.userId != userId) ++
    [{ userId := userId, state := state, expiresAt := expiresAt, createdAt := now }]

/-- `validateAndDeleteState(userId, state)`: one atomic find-and-delete;
returns `true` iff a document matched (and is now deleted). -/
def validateAndDeleteState (db : OAuthStateDb) (userId state : String)
    (now : Nat) : Bool × OAuthStateDb :=
  let res := findOneAndDelete (stateMatches userId state now) db
  (res.1.isSome, res.2)

/-! Helper lemmas about the ledger. -/

theorem findOneAndDelete_fst (p : OAuthStateRec → Bool) (db : OAuthStateDb) :
    (findOneAndDelete p db).1 = db.find? p := by
  induction db with
  | nil => rfl
  | cons r rest ih =>
    by_cases h : p r
    · simp [findOneAndDelete, List.find?, h]
    · simp only [Bool.not_eq_true] at h
      simp [findOneAndDelete, List.find?, h, ih]

theorem findOneAndDelete_snd (p : OAuthStateRec → Bool) (db : OAuthStateDb) :
    (findOneAndDelete p db).2 = db.eraseP p := by
  induction db with
  | nil => rfl
  | cons r rest ih =>
    by_cases h : p r
    · simp [findOneAndDelete, List.eraseP_cons, h]
    · simp only [Bool.not_eq_true] at h
      simp [findOneAndDelete, List.eraseP_cons, h, ih]

theorem find?_append_of_none {α : Type} {p : α → Bool} {l₁ : List α}
    (h : ∀ r ∈ l₁, p r = false) (l₂ : List α) :
    (l₁ ++ l₂).find? p = l₂.find? p := by
  induction l₁ with
  | nil => rfl
  | cons r rest ih =>
    have hr : p r = false := h r (List.mem_cons_self r rest)
    simp only [List.cons_append, List.find?, hr]
    exact ih fun x hx => h x (List.mem_cons_of_mem r hx)

theorem eraseP_append_of_none {α : Type} {p : α → Bool} {l₁ : List α}
    (h : ∀ r ∈ l₁, p r = false) (l₂ : List α) :
    (l₁ ++ l₂).eraseP p = l₁ ++ l₂.eraseP p := by
  induction l₁ with
  | nil => rfl
  | cons r rest ih =>
    have hr : p r = false := h r (List.mem_cons_self r rest)
    simp only [List.cons_append, List.eraseP_cons, hr, cond_false,
      List.cons.injEq, true_and]
    exact ih fun x hx => h x (List.mem_cons_of_mem r hx)

theorem stateMatches_false_of_ne_user {u s : String} {now : Nat}
    {r : OAuthStateRec} (h : r.userId ≠ u) : stateMatches u s now r = false := by
  simp [stateMatches, h]

theorem filter_ne_user_no_match (db : OAuthStateDb) (u s : String) (now : Nat) :
    ∀ r ∈ db.filter (fun r => r.userId != u), stateMatches u s now r = false := by
  intro r hr
  have := List.of_mem_filter hr
  simp only [bne_iff_ne, ne_eq] at this
  exact stateMatches_false_of_ne_user this

/-- **C1.** `validateAndConsume` succeeds exactly when a record with that
userId, that exact state and `expiresAt` strictly in the future exists in
the ledger; the matched record is deleted in the same operation (the
returned collection is the old one with the first match erased).  After
`createState`, a consume with the correct state inside the 5-minute window
succeeds, and a second consume of the same state against the returned
collection fails (no replay); a consume after expiry fails even though
userId and state match exactly. -/
theorem oauth_state_validate_and_consume
    (db : OAuthStateDb) (u s : String) (now : Nat) :
    ((validateAndDeleteState db u s now).1 = true ↔
        ∃ r ∈ db, r.userId = u ∧ r.state = s ∧ now < r.expiresAt)
    ∧ (validateAndDeleteState db u s now).2 = db.eraseP (stateMatches u s now)
    ∧ (∀ t₁ t₂, t₂ < t₁ + 5 * 60 * 1000 →
        (validateAndDeleteState (createState db u s 5 t₁) u s t₂).1 = true ∧
        (validateAndDeleteState
          (validateAndDeleteState (createState db u s 5 t₁) u s t₂).2 u s t₂).1
            = false)
    ∧ (∀ t₁ t₂, t₁ + 5 * 60 * 1000 ≤ t₂ →
        (validateAndDeleteState (createState db u s 5 t₁) u s t₂).1 = false) := by
  refine ⟨?_, ?_, ?_, ?_⟩
  · simp only [validateAndDeleteState, findOneAndDelete_fst,
      List.find?_isSome, stateMatches]
    constructor
    · rintro ⟨r, hr, hm⟩
      simp only [Bool.and_eq_true, beq_iff_eq, decide_eq_true_eq] at hm
      exact ⟨r, hr, hm.1.1, hm.1.2, hm.2⟩
    · rintro ⟨r, hr, h1, h2, h3⟩
      refine ⟨r, hr, ?_⟩
      simp [h1, h2, h3]
  · simp [validateAndDeleteState, findOneAndDelete_snd]
  · intro t₁ t₂ ht
    have hfilter := filter_ne_user_no_match db u s t₂
    have hmatch : stateMatches u s t₂
        { userId := u, state := s, expiresAt := t₁ + 5 * 60 * 1000, createdAt := t₁ } = true := by
      simp [stateMatches, ht]
    constructor
    · simp only [validateAndDeleteState, findOneAndDelete_fst, createState,
        find?_append_of_none hfilter, List.find?, hmatch]
      rfl
    · have h2 : (validateAndDeleteState (createState db u s 5 t₁) u s t₂).2
          = db.filter (fun r => r.userId != u) := by
        simp only [validateAndDeleteState, findOneAndDelete_snd, createState,
          eraseP_append_of_none hfilter, List.eraseP_cons, hmatch, cond_true,
          List.append_nil]
      have hnone : (db.filter (fun r => r.userId != u)).find?
          (stateMatches u s t₂) = none :=
        List.find?_eq_none.mpr (fun x hx => by simp [hfilter x hx])
      rw [h2]
      simp [validateAndDeleteState, findOneAndDelete_fst, hnone]
  · intro t₁ t₂ ht
    have hfilter := filter_ne_user_no_match db u s t₂
    have hmatch : stateMatches u s t₂
        { userId := u, state := s, expiresAt := t₁ + 5 * 60 * 1000, createdAt := t₁ } = false := by
      simp [stateMatches, Nat.not_lt.mpr ht]
    simp [validateAndDeleteState, findOneAndDelete_fst, createState,
      find?_append_of_none hfilter, List.find?, hmatch]

/-- Witness for `oauth_state_validate_and_consume` at a concrete ledger. -/
theorem oauth_state_validate_and_consume_witness :
    (validateAndDeleteState
        (createState [] "user1" "stateA" 5 1000) "user1" "stateA" 2000).1 = true ∧
    (validateAndDeleteState
        (createState [] "user1" "stateA" 5 1000) "user1" "stateA" 400000).1 = false := by
  have h := oauth_state_validate_and_consume ([] : OAuthStateDb) "user1" "stateA" 0
  exact ⟨(h.2.2.1 1000 2000 (by decide)).1, h.2.2.2 1000 400000 (by decide)⟩

/-- **C2.** `createState` first runs `deleteMany({ userId })` and then
inserts exactly one record whose `expiresAt` is `now + 5 minutes`: after
it, the ledger holds exactly one record for that user (the new one) and
the records of other users are untouched; consequently, after creating a
second (distinct) state for the same user, `validateAndConsume` with the
first state's value returns false. -/
theorem oauth_state_at_most_one_live
    (db : OAuthStateDb) (u s₁ s₂ : String) (t₁ t₂ now : Nat) (hne : s₁ ≠ s₂) :
    (createState db u s₂ 5 t₂).filter (fun r => r.userId == u)
        = [{ userId := u, state := s₂, expiresAt := t₂ + 5 * 60 * 1000,
             createdAt := t₂ }]
    ∧ (createState db u s₂ 5 t₂).filter (fun r => r.userId != u)
        = db.filter (fun r => r.userId != u)
    ∧ (validateAndDeleteState
        (createState (createState db u s₁ 5 t₁) u s₂ 5 t₂) u s₁ now).1 = false := by
  refine ⟨?_, ?_, ?_⟩
  · simp only [createState, List.filter_append]
    rw [List.filter_eq_nil_iff.mpr ?keep]
    case keep =>
      intro r hr
      have := List.of_mem_filter hr
      simpa using this
    simp
  · simp only [createState, List.filter_append]
    rw [List.filter_filter]
    have : (fun r : OAuthStateRec => r.userId != u && (r.userId != u))
        = fun r : OAuthStateRec => r.userId != u := by
      funext r; by_cases h : r.userId = u <;> simp [h]
    simp [this]
  · have hall : ∀ r ∈ createState (createState db u s₁ 5 t₁) u s₂ 5 t₂,
        stateMatches u s₁ now r = false := by
      intro r hr
      simp only [createState, List.mem_append, List.mem_singleton] at hr
      rcases hr with hr | hr
      · exact stateMatches_false_of_ne_user (by simpa using List.of_mem_filter hr)
      · subst hr
        simp [stateMatches, Ne.symm hne]
    have hnone : (createState (createState db u s₁ 5 t₁) u s₂ 5 t₂).find?
        (stateMatches u s₁ now) = none :=
      List.find?_eq_none.mpr (fun x hx => by simp [hall x hx])
    simp [validateAndDeleteState, findOneAndDelete_fst, hnone]

/-- Witness for `oauth_state_at_most_one_live` at a concrete ledger. -/
theorem oauth_state_at_most_one_live_witness :
    (validateAndDeleteState
      (createState (createState [] "user1" "stA" 5 100) "user1" "stB" 5 200)
      "user1" "stA" 300).1 = false :=
  (oauth_state_at_most_one_live [] "user1" "stA" "stB" 100 200 300
    (by decide)).2.2

/-! ## Secret Codec (Cryptr wrapper in api/jira/jira.service.js)

`cryptr.encrypt` / `cryptr.decrypt` are modelled as perfect symmetric
encryption under a process-wide secret: a ciphertext remembers the secret
it was produced with, and decryption succeeds exactly under that secret.
Only determinism and invertibility of the codec are used by the claims. -/

structure Ciphertext where
  secretKey : String
  plain     : String
deriving DecidableEq, Repr

def encrypt (key plain : String) : Ciphertext :=
  { secretKey := key, plain := plain }

def decrypt (key : String) (c : Ciphertext) : Except String String :=
  if c.secretKey = key then .ok c.plain else .error "CorruptedSecret"

/-! ## External Tracker Client (api/jira/jira.service.js) -/

/-- Token payload returned by Atlassian's token endpoint
(`exchangeCodeForTokens` / `refreshAccessToken` response shape). -/
structure JiraTokens where
  access_token  : String
  refresh_token : String
  expires_in    : Nat
deriving DecidableEq, Repr

/-- Jira connection config stored on the user
(`user.config.jira`): cloud id, site url, encrypted tokens, expiry in
epoch ms, connection timestamp. -/
structure JiraConfig where
  cloudId      : String
  siteUrl      : String
  accessToken  : Ciphertext
  refreshToken : Ciphertext
  expiresAt    : Nat
  connectedAt  : Nat
deriving DecidableEq, Repr

/-- `encryptTokens(tokens)`: encrypts both tokens and computes
`expiresAt = Date.now() + expires_in * 1000`. -/
def encryptTokens (key : String) (tokens : JiraTokens) (now : Nat) :
    Ciphertext × Ciphertext × Nat :=
  (encrypt key tokens.access_token, encrypt key tokens.refresh_token,
   now + tokens.expires_in * 1000)

/-- `decryptTokens(encryptedTokens)`: decrypts both tokens and passes
`expiresAt` through. -/
def decryptTokens (key : String) (cfg : JiraConfig) :
    Except String (String × String × Nat) :=
  match decrypt key cfg.accessToken with
  | .error e => .error e
  | .ok a =>
    match decrypt key cfg.refreshToken with
    | .error e => .error e
    | .ok r => .ok (a, r, cfg.expiresAt)

/-- One entry of the accessible-resources response. -/
structure JiraResource where
  id  : String
  url : String
deriving DecidableEq, Repr

/-- `getCloudId(accessToken)`: calls the accessible-resources endpoint
(its outcome is the `resources` argument: `.error` = the HTTP call threw,
`.ok l` = it returned list `l`).  Inside the `try`, an empty list throws
`'No accessible Jira sites found'`; the surrounding `catch` replaces any
error — including that one — with `'Failed to get Jira cloud ID'`. -/
def getCloudId (resources : Except String (List JiraResource)) :
    Except String (String × String) :=
  let tryBlock : Except String (String × String) := do
    let data ← resources
    match data with
    | [] => .error "No accessible Jira sites found"
    | r :: _ => pure (r.id, r.url)
  match tryBlock with
  | .ok v => .ok v
  | .error _ => .error "Failed to get Jira cloud ID"

/-- **C9 counterexample.** The claim that an empty accessible-resources
list fails with a *distinguishable* `NoAccessibleWorkspace` error is false
on the code: the error surfaced for an empty list is the generic
`'Failed to get Jira cloud ID'`, byte-for-byte the same error produced by
a plain network failure, so the two cases are indistinguishable to the
caller. -/
theorem getCloudId_empty_error_indistinguishable :
    getCloudId (.ok []) = .error "Failed to get Jira cloud ID"
    ∧ getCloudId (.error "ECONNRESET") = .error "Failed to get Jira cloud ID"
    ∧ getCloudId (.ok []) = getCloudId (.error "ECONNRESET") := by
  refine ⟨rfl, rfl, rfl⟩

/-- **C9 (amended).** For an access token whose accessible-resources call
returns an empty list, `getCloudId` fails — but with the generic
`'Failed to get Jira cloud ID'` error, the same one surfaced for any other
failure of the call (the specific cause is only logged); for a non-empty
list it returns the first workspace's `{cloudId, siteUrl}`. -/
theorem getCloudId_resolves_first_workspace
    (resources : List JiraResource) (e : String) :
    (resources = [] → getCloudId (.ok resources)
        = .error "Failed to get Jira cloud ID")
    ∧ (∀ r rest, resources = r :: rest →
        getCloudId (.ok resources) = .ok (r.id, r.url))
    ∧ getCloudId (.error e) = .error "Failed to get Jira cloud ID" := by
  refine ⟨?_, ?_, rfl⟩
  · rintro rfl; rfl
  · rintro r rest rfl; rfl

/-- Witness for `getCloudId_resolves_first_workspace`. -/
theorem getCloudId_resolves_first_workspace_witness :
    getCloudId (.ok [{ id := "cloud-1", url := "https://x.atlassian.net" }])
      = .ok ("cloud-1", "https://x.atlassian.net") :=
  (getCloudId_resolves_first_workspace
      [{ id := "cloud-1", url := "https://x.atlassian.net" }] "e").2.1
    { id := "cloud-1", url := "https://x.atlassian.net" } [] rfl

/-! ## Token Lifecycle Manager (api/jira/jira.controller.js, getValidJiraToken) -/

/-- User record as far as the token lifecycle is concerned
(`user.config?.jira`). -/
structure User where
  _id   : String
  name  : String
  email : String
  jira  : Option JiraConfig
deriving DecidableEq, Repr

/-- `getValidJiraToken(loggedinUser)`: loads the user, throws
`'Jira not connected'` when `user.config?.jira` is absent, decrypts the
stored tokens, and if `Date.now() >= expiresAt` calls
`jiraService.refreshAccessToken` (its outcome is the `refresh` oracle),
re-encrypts the new pair with `encryptTokens`, merges
`{ ...jiraConfig, ...encrypted }` back into the user record, persists it
via `userService.update`, and returns the new `access_token`; otherwise it
returns the decrypted current access token and performs no update.  The
result is the persisted user record paired with the access token. -/
def getValidJiraToken (key : String) (user : User) (now : Nat)
    (refresh : String → Except String JiraTokens) :
    Except String (User × String) :=
  match user.jira with
  | none => .error "Jira not connected"
  | some jiraConfig =>
    match decryptTokens key jiraConfig with
    | .error e => .error e
    | .ok (accessToken, refreshToken, expiresAt) =>
      if expiresAt ≤ now then
        match refresh refreshToken with
        | .error e => .error e
        | .ok newTokens =>
          let enc := encryptTokens key newTokens now
          let newCfg := { jiraConfig with
            accessToken := enc.1, refreshToken := enc.2.1, expiresAt := enc.2.2 }
          let user' := { user with jira := some newCfg }
          .ok (user', newTokens.access_token)
      else
        .ok (user, accessToken)

/-- **C3.** For a connected user (tokens stored encrypted under the
process secret): when `now < expiresAt` the lifecycle step returns the
decrypted current access token and leaves the stored record entirely
unchanged; when `now >= expiresAt` it calls refresh, re-encrypts the new
pair, persists the record with `cloudId`, `siteUrl` and `connectedAt`
unchanged and expiry `now + expires_in*1000`, and returns the fresh access
token. -/
theorem token_lifecycle_refresh_and_frame
    (key : String) (user : User) (cfg : JiraConfig) (now : Nat)
    (newTokens : JiraTokens)
    (hjira : user.jira = some cfg)
    (hak : cfg.accessToken.secretKey = key)
    (hrk : cfg.refreshToken.secretKey = key) :
    (now < cfg.expiresAt →
      getValidJiraToken key user now (fun _ => .ok newTokens)
        = .ok (user, cfg.accessToken.plain))
    ∧ (cfg.expiresAt ≤ now →
      ∃ cfg',
        getValidJiraToken key user now (fun _ => .ok newTokens)
          = .ok ({ user with jira := some cfg' }, newTokens.access_token)
        ∧ cfg'.cloudId = cfg.cloudId
        ∧ cfg'.siteUrl = cfg.siteUrl
        ∧ cfg'.connectedAt = cfg.connectedAt
        ∧ cfg'.accessToken = encrypt key newTokens.access_token
        ∧ cfg'.refreshToken = encrypt key newTokens.refresh_token
        ∧ cfg'.expiresAt = now + newTokens.expires_in * 1000) := by
  constructor
  · intro hfresh
    simp [getValidJiraToken, hjira, decryptTokens, decrypt, hak, hrk,
      Nat.not_le.mpr hfresh]
  · intro hstale
    refine ⟨{ cfg with
        accessToken := encrypt key newTokens.access_token,
        refreshToken := encrypt key newTokens.refresh_token,
        expiresAt := now + newTokens.expires_in * 1000 }, ?_, rfl, rfl, rfl, rfl, rfl, rfl⟩
    simp [getValidJiraToken, hjira, decryptTokens, decrypt, hak, hrk, hstale,
      encryptTokens]

/-- Concrete connected user for the token-lifecycle witness. -/
def sampleJiraCfg : JiraConfig :=
  { cloudId := "c", siteUrl := "s", accessToken := encrypt "k" "AT",
    refreshToken := encrypt "k" "RT", expiresAt := 1000, connectedAt := 5 }

/-- Concrete user record for the token-lifecycle witness. -/
def sampleUser : User :=
  { _id := "u1", name := "n", email := "e", jira := some sampleJiraCfg }

/-- Concrete refresh response for the token-lifecycle witness. -/
def sampleNewTokens : JiraTokens :=
  { access_token := "AT2", refresh_token := "RT2", expires_in := 3600 }

/-- Witness for `token_lifecycle_refresh_and_frame`: a concrete connected
user with a still-fresh token. -/
theorem token_lifecycle_refresh_and_frame_witness :
    getValidJiraToken "k" sampleUser 900 (fun _ => .ok sampleNewTokens)
      = .ok (sampleUser, "AT") :=
  (token_lifecycle_refresh_and_frame "k" sampleUser sampleJiraCfg 900
    sampleNewTokens rfl rfl rfl).1 (by decide)

/-! ## API Key Manager (api/apikey/apikey.service.js)

JS strings holding keys are modelled as `List Char` so that
character-level operations (`startsWith`, `substring(3)`, single-character
mutation) are explicit.  `crypto.createHash('sha256')` is modelled as a
perfect (injective, deterministic) hash: the digest is an opaque wrapper
around the preimage; the claims use only determinism and
collision-freeness of SHA-256. -/

abbrev JStr := List Char

structure SHA256 where
  preimage : JStr
deriving DecidableEq, Repr

/-- `hashApiKey(apiKey)`: SHA-256 hex digest of the key. -/
def hashApiKey (apiKey : JStr) : SHA256 :=
  { preimage := apiKey }

/-- A document of the `apikeys` collection. -/
structure ApiKeyDoc where
  _id        : String
  userId     : String
  name       : String
  hashedKey  : SHA256
  createdAt  : Nat
  lastUsedAt : Option Nat
  isActive   : Bool
deriving DecidableEq, Repr

abbrev ApiKeyDb := List ApiKeyDoc

/-- The value `generateApiKey` returns (the plaintext appears here exactly
once and is not part of the stored document). -/
structure IssuedKey where
  id        : String
  apiKey    : JStr
  name      : String
  createdAt : Nat
deriving DecidableEq, Repr

/-- `{userId, keyId}` returned by a successful validation. -/
structure ApiKeyIdentity where
  userId : String
  keyId  : String
deriving DecidableEq, Repr

/-- `generateApiKey(userId, name)`: draws a 32-byte random hex secret
(`randomHex`, supplied as an argument), stores
`{userId, name, hashedKey: sha256(secret), createdAt, lastUsedAt: null,
isActive: true}` and returns the plaintext `'ih_' + secret` exactly once.
`newId` is the Mongo-assigned `insertedId`. -/
def generateApiKey (db : ApiKeyDb) (newId userId name : String)
    (randomHex : JStr) (now : Nat) : ApiKeyDb × IssuedKey :=
  let hashedKey := hashApiKey randomHex
  let apiKeyDoc : ApiKeyDoc :=
    { _id := newId, userId := userId, name := name, hashedKey := hashedKey,
      createdAt := now, lastUsedAt := none, isActive := true }
  (db ++ [apiKeyDoc],
   { id := newId, apiKey := ['i', 'h', '_'] ++ randomHex, name := name,
     createdAt := now })

/-- `apiKey.startsWith('ih_') ? apiKey.substring(3) : apiKey`. -/
def cleanApiKey (k : JStr) : JStr :=
  if ['i', 'h', '_'].isPrefixOf k then k.drop 3 else k

/-- The `try` block of `validateApiKey`: strip the prefix, hash, look up
an **active** document with that hash, then `await` the `lastUsedAt`
update and return `{userId, keyId}`.  `findFails` / `updateFails` say
whether the corresponding awaited Mongo call rejects. -/
def validateApiKeyTry (db : ApiKeyDb) (apiKey : JStr) (now : Nat)
    (findFails updateFails : Bool) :
    Except String (Option ApiKeyIdentity × ApiKeyDb) :=
  let cleanKey := cleanApiKey apiKey
  let hashedKey := hashApiKey cleanKey
  if findFails then .error "db findOne failed"
  else
    match db.find? (fun d => decide (d.hashedKey = hashedKey) && d.isActive) with
    | none => .ok (none, db)
    | some apiKeyDoc =>
      if updateFails then .error "db updateOne failed"
      else
        let db' := db.map fun d =>
          if d._id = apiKeyDoc._id then { d with lastUsedAt := some now } else d
        .ok (some { userId := apiKeyDoc.userId, keyId := apiKeyDoc._id }, db')

/-- `validateApiKey(apiKey)`: the `try` block wrapped in the
`catch` that logs and returns `null`. -/
def validateApiKey (db : ApiKeyDb) (apiKey : JStr) (now : Nat)
    (findFails updateFails : Bool) : Option ApiKeyIdentity × ApiKeyDb :=
  match validateApiKeyTry db apiKey now findFails updateFails with
  | .ok res => res
  | .error _ => (none, db)

theorem length_set_ne_self {l : JStr} {j : Nat} {c : Char}
    (hj : j < l.length) (hc : c ≠ l.get ⟨j, hj⟩) : l.set j c ≠ l := by
  induction l generalizing j with
  | nil => exact absurd hj (Nat.not_lt_zero j)
  | cons a t ih =>
    cases j with
    | zero =>
      intro h
      simp only [List.set, List.cons.injEq] at h
      exact hc h.1
    | succ j =>
      intro h
      simp only [List.set, List.cons.injEq, true_and] at h
      exact ih (Nat.lt_of_succ_lt_succ hj) hc h

theorem cleanApiKey_marker (rest : JStr) :
    cleanApiKey ('i' :: 'h' :: '_' :: rest) = rest := by
  simp [cleanApiKey, List.isPrefixOf]

theorem validateApiKey_single_none
    (doc : ApiKeyDoc) (k : JStr) (now : Nat)
    (h : doc.hashedKey ≠ hashApiKey (cleanApiKey k)) :
    (validateApiKey [doc] k now false false).1 = none := by
  simp [validateApiKey, validateApiKeyTry, List.find?, h]

/-- **C4.** `generateApiKey` returns a plaintext that is exactly the fixed
marker `'ih_'` followed by the random secret, and stores a single document
holding only the SHA-256 hash of the secret (the key without the marker);
`validateApiKey` of that exact plaintext against the store returns
`{userId, keyId}` with the issuing user's id and the record's id; and
`validateApiKey` of any single-character mutation of the plaintext
returns null. -/
theorem apikey_issue_validate_roundtrip
    (newId userId name : String) (randomHex : JStr) (tIssue tUse : Nat) :
    ((generateApiKey [] newId userId name randomHex tIssue).2).apiKey
        = ['i', 'h', '_'] ++ randomHex
    ∧ (generateApiKey [] newId userId name randomHex tIssue).1
        = [{ _id := newId, userId := userId, name := name,
             hashedKey := hashApiKey randomHex, createdAt := tIssue,
             lastUsedAt := none, isActive := true }]
    ∧ (validateApiKey (generateApiKey [] newId userId name randomHex tIssue).1
         (['i', 'h', '_'] ++ randomHex) tUse false false).1
        = some { userId := userId, keyId := newId }
    ∧ (∀ i, ∀ hi : i < (['i', 'h', '_'] ++ randomHex).length, ∀ c,
        c ≠ (['i', 'h', '_'] ++ randomHex).get ⟨i, hi⟩ →
        (validateApiKey (generateApiKey [] newId userId name randomHex tIssue).1
           ((['i', 'h', '_'] ++ randomHex).set i c) tUse false false).1
          = none) := by
  refine ⟨rfl, rfl, ?_, ?_⟩
  · simp [validateApiKey, validateApiKeyTry, cleanApiKey_marker,
      List.find?, generateApiKey]
  · intro i hi c hc
    rcases i with _ | i
    · have hc' : c ≠ 'i' := hc
      have hbeq : (('i' : Char) == c) = false :=
        beq_eq_false_iff_ne.mpr (Ne.symm hc')
      apply validateApiKey_single_none
      rw [show ((['i', 'h', '_'] : JStr) ++ randomHex).set 0 c
          = c :: 'h' :: '_' :: randomHex from rfl]
      rw [show cleanApiKey (c :: 'h' :: '_' :: randomHex)
          = c :: 'h' :: '_' :: randomHex from by
        simp [cleanApiKey, List.isPrefixOf, hbeq]]
      simp only [hashApiKey, ne_eq, SHA256.mk.injEq]
      intro h
      have hlen := congrArg List.length h
      simp only [List.length_cons] at hlen
      omega
    rcases i with _ | i
    · have hc' : c ≠ 'h' := hc
      have hbeq : (('h' : Char) == c) = false :=
        beq_eq_false_iff_ne.mpr (Ne.symm hc')
      apply validateApiKey_single_none
      rw [show ((['i', 'h', '_'] : JStr) ++ randomHex).set 1 c
          = 'i' :: c :: '_' :: randomHex from rfl]
      rw [show cleanApiKey ('i' :: c :: '_' :: randomHex)
          = 'i' :: c :: '_' :: randomHex from by
        simp [cleanApiKey, List.isPrefixOf, hbeq]]
      simp only [hashApiKey, ne_eq, SHA256.mk.injEq]
      intro h
      have hlen := congrArg List.length h
      simp only [List.length_cons] at hlen
      omega
    rcases i with _ | j
    · have hc' : c ≠ '_' := hc
      have hbeq : (('_' : Char) == c) = false :=
        beq_eq_false_iff_ne.mpr (Ne.symm hc')
      apply validateApiKey_single_none
      rw [show ((['i', 'h', '_'] : JStr) ++ randomHex).set 2 c
          = 'i' :: 'h' :: c :: randomHex from rfl]
      rw [show cleanApiKey ('i' :: 'h' :: c :: randomHex)
          = 'i' :: 'h' :: c :: randomHex from by
        simp [cleanApiKey, List.isPrefixOf, hbeq]]
      simp only [hashApiKey, ne_eq, SHA256.mk.injEq]
      intro h
      have hlen := congrArg List.length h
      simp only [List.length_cons] at hlen
      omega
    · have hj : j < randomHex.length := by
        have hlen : j + 3 < randomHex.length + 3 := by
          simpa [Nat.add_comm, Nat.add_left_comm] using hi
        exact Nat.lt_of_add_lt_add_right hlen
      have hc' : c ≠ randomHex.get ⟨j, hj⟩ := hc
      apply validateApiKey_single_none
      rw [show ((['i', 'h', '_'] : JStr) ++ randomHex).set (j + 3) c
          = 'i' :: 'h' :: '_' :: randomHex.set j c from rfl]
      rw [cleanApiKey_marker]
      simp only [hashApiKey, ne_eq, SHA256.mk.injEq]
      exact fun h => length_set_ne_self hj hc' h.symm

/-- Witness for `apikey_issue_validate_roundtrip`: concrete issue,
validate, and a one-character mutation at position 3. -/
theorem apikey_issue_validate_roundtrip_witness :
    (validateApiKey (generateApiKey [] "key9" "user7" "ci" ['a', 'b'] 10).1
        (['i', 'h', '_'] ++ ['a', 'b']) 20 false false).1
      = some { userId := "user7", keyId := "key9" }
    ∧ (validateApiKey (generateApiKey [] "key9" "user7" "ci" ['a', 'b'] 10).1
        ((['i', 'h', '_'] ++ ['a', 'b']).set 3 'z') 20 false false).1
      = none := by
  have h := apikey_issue_validate_roundtrip "key9" "user7" "ci" ['a', 'b'] 10 20
  exact ⟨h.2.2.1, h.2.2.2 3 (by decide) 'z' (by decide)⟩

/-- **C5.** `validateApiKey` yields the null result for every presented
key that is revoked (no *active* record carries its hash — deactivated or
deleted records do not match) or was never issued; a storage error on the
lookup is caught and also yields null rather than an exception; and in
general the outcome is always a plain value: either null or the identity
of a genuinely issued, active, hash-matching record. -/
theorem apikey_validate_null_on_failure
    (db : ApiKeyDb) (k : JStr) (now : Nat) (findFails updateFails : Bool) :
    ((∀ d ∈ db, d.hashedKey = hashApiKey (cleanApiKey k) → d.isActive = false) →
      (validateApiKey db k now findFails updateFails).1 = none)
    ∧ (findFails = true →
      validateApiKey db k now findFails updateFails = (none, db))
    ∧ ((validateApiKey db k now findFails updateFails).1 = none ∨
      ∃ d ∈ db, d.isActive = true
        ∧ d.hashedKey = hashApiKey (cleanApiKey k)
        ∧ (validateApiKey db k now findFails updateFails).1
            = some { userId := d.userId, keyId := d._id }) := by
  refine ⟨?_, ?_, ?_⟩
  · intro hrev
    have hnone : db.find?
        (fun d => decide (d.hashedKey = hashApiKey (cleanApiKey k)) && d.isActive)
          = none := by
      refine List.find?_eq_none.mpr fun d hd => ?_
      simp only [Bool.and_eq_true, decide_eq_true_eq, not_and]
      intro hh
      simp [hrev d hd hh]
    cases findFails <;>
      simp [validateApiKey, validateApiKeyTry, hnone]
  · intro hf
    subst hf
    simp [validateApiKey, validateApiKeyTry]
  · cases findFails with
    | true => left; simp [validateApiKey, validateApiKeyTry]
    | false =>
      rcases hfind : db.find?
          (fun d => decide (d.hashedKey = hashApiKey (cleanApiKey k)) && d.isActive)
        with _ | d
      · left
        simp [validateApiKey, validateApiKeyTry, hfind]
      · have hmem := List.mem_of_find?_eq_some hfind
        have hprop := List.find?_some hfind
        simp only [Bool.and_eq_true, decide_eq_true_eq] at hprop
        cases updateFails with
        | true => left; simp [validateApiKey, validateApiKeyTry, hfind]
        | false =>
          right
          exact ⟨d, hmem, hprop.2, hprop.1,
            by simp [validateApiKey, validateApiKeyTry, hfind]⟩

/-- Witness for `apikey_validate_null_on_failure`: a revoked (inactive)
record with the matching hash fails validation. -/
theorem apikey_validate_null_on_failure_witness :
    (validateApiKey
      [{ _id := "k1", userId := "u1", name := "n",
         hashedKey := hashApiKey ['a'], createdAt := 0,
         lastUsedAt := none, isActive := false }]
      ['i', 'h', '_', 'a'] 5 false false).1 = none := by
  exact (apikey_validate_null_on_failure
    [{ _id := "k1", userId := "u1", name := "n",
       hashedKey := hashApiKey ['a'], createdAt := 0,
       lastUsedAt := none, isActive := false }]
    ['i', 'h', '_', 'a'] 5 false false).1 (by decide)

/-- **C6 counterexample.** The `lastUsedAt` update is *not*
fire-and-forget with respect to the validation result: the code `await`s
`updateOne` inside the `try`, so when that update rejects, the `catch`
returns null and the caller does not receive the `{userId, keyId}`
identity it receives when the update succeeds — the update's failure
changes the value `validateApiKey` returns. -/
theorem apikey_lastused_failure_changes_result :
    (validateApiKey
      [{ _id := "k1", userId := "u1", name := "n",
         hashedKey := hashApiKey ['a'], createdAt := 0,
         lastUsedAt := none, isActive := true }]
      ['i', 'h', '_', 'a'] 5 false true).1 = none
    ∧ (validateApiKey
      [{ _id := "k1", userId := "u1", name := "n",
         hashedKey := hashApiKey ['a'], createdAt := 0,
         lastUsedAt := none, isActive := true }]
      ['i', 'h', '_', 'a'] 5 false false).1
        = some { userId := "u1", keyId := "k1" } := by
  refine ⟨by decide, by decide⟩

/-- **C6 (amended).** The `lastUsedAt` update is awaited as part of
validation: when it succeeds the caller receives the `{userId, keyId}`
identity of the matched record (with `lastUsedAt` set in the store), and
when it fails the catch-all returns null — the caller never receives an
exception, but an update failure does change the result to null. -/
theorem apikey_lastused_update_awaited
    (db : ApiKeyDb) (k : JStr) (now : Nat) (d : ApiKeyDoc)
    (hfind : db.find?
      (fun d => decide (d.hashedKey = hashApiKey (cleanApiKey k)) && d.isActive)
        = some d) :
    (validateApiKey db k now false false).1
        = some { userId := d.userId, keyId := d._id }
    ∧ validateApiKey db k now false true = (none, db) := by
  constructor
  · simp [validateApiKey, validateApiKeyTry, hfind]
  · simp [validateApiKey, validateApiKeyTry, hfind]

/-- Witness for `apikey_lastused_update_awaited`. -/
theorem apikey_lastused_update_awaited_witness :
    (validateApiKey
      [{ _id := "k2", userId := "u2", name := "m",
         hashedKey := hashApiKey ['b'], createdAt := 0,
         lastUsedAt := none, isActive := true }]
      ['i', 'h', '_', 'b'] 7 false false).1
        = some { userId := "u2", keyId := "k2" } := by
  exact (apikey_lastused_update_awaited
    [{ _id := "k2", userId := "u2", name := "m",
       hashedKey := hashApiKey ['b'], createdAt := 0,
       lastUsedAt := none, isActive := true }]
    ['i', 'h', '_', 'b'] 7
    { _id := "k2", userId := "u2", name := "m",
      hashedKey := hashApiKey ['b'], createdAt := 0,
      lastUsedAt := none, isActive := true }
    (by decide)).1

/-! ## Session Authenticator (api/auth/auth.service.js, JWT revision)

`jsonwebtoken` is modelled abstractly: an HS256 signature is a perfect MAC
(the tag determines the signed claims and the secret, so a tag cannot be
forged for different claims without the secret); `jwt.sign` with
`expiresIn: '24h'` adds `iat` and `exp` claims in seconds;
`jwt.verify` checks the signature, then `exp` against the current time,
raising `JsonWebTokenError` resp. `TokenExpiredError`. -/

structure SessionUser where
  _id   : String
  name  : String
  email : String
deriving DecidableEq, Repr

structure JwtClaims where
  _id   : String
  name  : String
  email : String
  iat   : Nat
  exp   : Nat
deriving DecidableEq, Repr

structure JwtSig where
  signedClaims : JwtClaims
  secret       : String
deriving DecidableEq, Repr

structure Jwt where
  claims : JwtClaims
  sig    : JwtSig
deriving DecidableEq, Repr

def jwtSign (payload : SessionUser) (secret : String) (now : Nat) : Jwt :=
  let claims : JwtClaims :=
    { _id := payload._id, name := payload.name, email := payload.email,
      iat := now, exp := now + 24 * 60 * 60 }
  { claims := claims, sig := { signedClaims := claims, secret := secret } }

inductive JwtError
  | TokenExpiredError
  | JsonWebTokenError
deriving DecidableEq, Repr

def jwtVerify (token : Jwt) (secret : String) (now : Nat) :
    Except JwtError JwtClaims :=
  if token.sig = { signedClaims := token.claims, secret := secret } then
    if token.claims.exp ≤ now then .error .TokenExpiredError
    else .ok token.claims
  else .error .JsonWebTokenError

/-- `getLoginToken(user)`: `jwt.sign({_id, name, email}, JWT_SECRET,
{ expiresIn: '24h' })`. -/
def getLoginToken (user : SessionUser) (secret : String) (now : Nat) : Jwt :=
  jwtSign user secret now

/-- `verifyToken(token)`: decoded `{_id, name, email}` or null; the two
failure modes are logged with different messages (the second component). -/
def verifyToken (token : Jwt) (secret : String) (now : Nat) :
    Option SessionUser × String :=
  match jwtVerify token secret now with
  | .ok d => (some { _id := d._id, name := d.name, email := d.email }, "")
  | .error .TokenExpiredError => (none, "JWT token expired")
  | .error .JsonWebTokenError => (none, "Invalid JWT token")

theorem jwtVerify_tampered (t : Jwt) (secret : String) (now : Nat)
    (h : t.sig.signedClaims ≠ t.claims) :
    jwtVerify t secret now = .error .JsonWebTokenError := by
  unfold jwtVerify
  rw [if_neg fun hh => h (by rw [hh])]

/-- **C7.** `getLoginToken` produces a signed token whose claims carry the
user's id, name and email plus issued-at `now` and expiry `now + 24h`;
`verifyToken` of the untampered token within 24 hours returns that
identity; after 24 hours it returns null logging the expiry message;
replacing the claims of a token while keeping its signature (tampering) is
detected and returns null logging the invalid-token message; and the two
failure modes carry different log messages while both yield the null
("not authenticated") result. -/
theorem session_token_sign_verify
    (user : SessionUser) (secret : String) (tIssue tCheck : Nat) :
    (getLoginToken user secret tIssue).claims
        = { _id := user._id, name := user.name, email := user.email,
            iat := tIssue, exp := tIssue + 24 * 60 * 60 }
    ∧ (tCheck < tIssue + 24 * 60 * 60 →
        verifyToken (getLoginToken user secret tIssue) secret tCheck
          = (some user, ""))
    ∧ (tIssue + 24 * 60 * 60 ≤ tCheck →
        verifyToken (getLoginToken user secret tIssue) secret tCheck
          = (none, "JWT token expired"))
    ∧ (∀ claims', claims' ≠ (getLoginToken user secret tIssue).claims →
        verifyToken
          { claims := claims', sig := (getLoginToken user secret tIssue).sig }
          secret tCheck
          = (none, "Invalid JWT token"))
    ∧ ("JWT token expired" : String) ≠ "Invalid JWT token" := by
  refine ⟨rfl, ?_, ?_, ?_, by decide⟩
  · intro h
    simp [verifyToken, jwtVerify, getLoginToken, jwtSign, Nat.not_le.mpr h]
  · intro h
    simp [verifyToken, jwtVerify, getLoginToken, jwtSign, h]
  · intro claims' hne
    have hv : jwtVerify
        { claims := claims', sig := (getLoginToken user secret tIssue).sig }
        secret tCheck = .error .JsonWebTokenError :=
      jwtVerify_tampered _ secret tCheck (fun hh => hne hh.symm)
    simp [verifyToken, hv]

/-- Concrete user for the session-token witness. -/
def anaUser : SessionUser :=
  { _id := "u1", name := "Ana", email := "a@x.com" }

/-- Tampered claims for the session-token witness. -/
def eveClaims : JwtClaims :=
  { _id := "u2", name := "Eve", email := "e@x.com",
    iat := 100, exp := 100 + 24 * 60 * 60 }

/-- Witness for `session_token_sign_verify`: a concrete user, verified
inside the 24-hour window, after it, and with tampered claims. -/
theorem session_token_sign_verify_witness :
    verifyToken (getLoginToken anaUser "sec" 100) "sec" 200
      = (some anaUser, "")
    ∧ verifyToken (getLoginToken anaUser "sec" 100) "sec" 100000
      = (none, "JWT token expired")
    ∧ verifyToken
        { claims := eveClaims, sig := (getLoginToken anaUser "sec" 100).sig }
        "sec" 200
      = (none, "Invalid JWT token") := by
  have h₁ := session_token_sign_verify anaUser "sec" 100 200
  have h₂ := session_token_sign_verify anaUser "sec" 100 100000
  exact ⟨h₁.2.1 (by decide), h₂.2.2.1 (by decide),
    h₁.2.2.2.1 eveClaims (by decide)⟩

/-! ## NHI Findings API (api/nhi-findings/nhi-findings.controller.js)

Request-body fields are modelled as absent (`none`), a string, an array,
or some other defined truthy value, which is what the validator's JS
truthiness / `typeof` / `Array.isArray` checks distinguish. -/

inductive JsVal
  | str (s : String)
  | arr (labels : List String)
  | other
deriving DecidableEq, Repr

structure FindingBody where
  projectKey  : Option JsVal
  summary     : Option JsVal
  description : Option JsVal
  issueType   : Option JsVal
  priority    : Option JsVal
  labels      : Option JsVal
deriving DecidableEq, Repr

/-- `!data.x || typeof data.x !== 'string'` (required string field). -/
def requiredStringErr : Option JsVal → Bool
  | some (.str s) => decide (s = "")
  | _ => true

/-- `String.prototype.trim`: strip leading and trailing whitespace. -/
def jsTrim (s : String) : String :=
  ⟨((s.data.dropWhile Char.isWhitespace).reverse.dropWhile
      Char.isWhitespace).reverse⟩

/-- `!data.x || typeof data.x !== 'string' || data.x.trim().length === 0`
(required non-empty string field). -/
def requiredNonEmptyErr : Option JsVal → Bool
  | some (.str s) => decide (s = "") || decide ((jsTrim s).length = 0)
  | _ => true

/-- `data.x && typeof data.x !== 'string'` (optional string field; the
empty string is falsy so it passes). -/
def optionalStringErr : Option JsVal → Bool
  | some (.arr _) => true
  | some .other => true
  | _ => false

/-- `data.labels && !Array.isArray(data.labels)`. -/
def labelsErr : Option JsVal → Bool
  | some (.str s) => decide (s ≠ "")
  | some .other => true
  | _ => false

def projectKeyMsg : String := "projectKey is required and must be a string"
def summaryMsg : String := "summary is required and must be a non-empty string"
def descriptionMsg : String :=
  "description is required and must be a non-empty string"
def issueTypeMsg : String := "issueType must be a string"
def priorityMsg : String := "priority must be a string"
def labelsMsg : String := "labels must be an array of strings"

structure ValidationResult where
  isValid : Bool
  errors  : List String
deriving DecidableEq, Repr

/-- `validateNHIFinding(data)`: pushes one message per violated field, in
source order, and is valid iff no message was pushed. -/
def validateNHIFinding (data : FindingBody) : ValidationResult :=
  let errors :=
    (if requiredStringErr data.projectKey then [projectKeyMsg] else []) ++
    (if requiredNonEmptyErr data.summary then [summaryMsg] else []) ++
    (if requiredNonEmptyErr data.description then [descriptionMsg] else []) ++
    (if optionalStringErr data.issueType then [issueTypeMsg] else []) ++
    (if optionalStringErr data.priority then [priorityMsg] else []) ++
    (if labelsErr data.labels then [labelsMsg] else [])
  { isValid := decide (errors.length = 0), errors := errors }

/-- The destructuring `const { issueType = 'Bug' } = req.body`: the
default applies when the property is absent.  (After validation the field
is absent or a string; for the unreachable non-string values the default
is used as a placeholder.) -/
def destructIssueType : Option JsVal → String
  | none => "Bug"
  | some (.str s) => s
  | some _ => "Bug"

/-- The destructuring `const { labels = [] } = req.body`.  (After
validation the only non-array value left is the falsy empty string, whose
array spread `[...'']` is also empty.) -/
def destructLabels : Option JsVal → List String
  | some (.arr l) => l
  | _ => []

/-- Destructured `priority` combined with the truthiness guard
`if (priority) issueData.priority = { name: priority }`. -/
def destructPriority : Option JsVal → Option String
  | some (.str s) => if s = "" then none else some s
  | _ => none

/-- Extracts a validated required string field. -/
def getStrField : Option JsVal → String
  | some (.str s) => s
  | _ => ""

/-- The Jira issue payload built at lines 108–146: trimmed summary, ADF
document around the trimmed description text, issue type name, optional
priority name, and caller labels with the three automatic labels appended
after them. -/
structure IssueData where
  projectKey    : String
  summary       : String
  description   : String
  issuetypeName : String
  priorityName  : Option String
  labels        : List String
deriving DecidableEq, Repr

def buildIssueData (projectKey summary description issueType : String)
    (priority : Option String) (labels : List String) : IssueData :=
  { projectKey := projectKey, summary := jsTrim summary,
    description := jsTrim description, issuetypeName := issueType,
    priorityName := priority,
    labels := labels ++ ["nhi-finding", "created-via-api",
      "created-from-identityhub"] }

/-- The external calls / storage writes `createNHIFinding` performs, in
order. -/
inductive Effect
  | dbGetUser
  | netRefresh
  | dbUpdateUser
  | netCreateIssue (issueData : IssueData)
deriving DecidableEq, Repr

structure ApiResponse where
  status    : Nat
  error     : Option String
  message   : Option String
  details   : List String
  ticketKey : Option String
  ticketId  : Option String
  ticketUrl : Option String
deriving DecidableEq, Repr

/-- `sub` occurs in `cs` as a contiguous run. -/
def listIncludes (sub : List Char) : List Char → Bool
  | [] => decide (sub = [])
  | c :: rest => sub.isPrefixOf (c :: rest) || listIncludes sub rest

/-- `sub` occurs in `s` (JS `String.prototype.includes`). -/
def includes (sub s : String) : Bool :=
  listIncludes sub.toList s.toList

/-- The controller's `catch`: classify the error message like lines
161–183 (project errors → 404, issue-type errors → 400, otherwise 500
with `err.message || 'Failed to create NHI finding'`). -/
def findingCatch (m : String) : ApiResponse :=
  if includes "project" m || includes "Project" m then
    { status := 404, error := some "Not found",
      message := some "Project not found or you don\x27t have access to it",
      details := [], ticketKey := none, ticketId := none, ticketUrl := none }
  else if includes "issue type" m || includes "issuetype" m then
    { status := 400, error := some "Invalid issue type",
      message := some "The specified issue type is not valid for this project",
      details := [], ticketKey := none, ticketId := none, ticketUrl := none }
  else
    { status := 500, error := some "Internal server error",
      message := some (if m = "" then "Failed to create NHI finding" else m),
      details := [], ticketKey := none, ticketId := none, ticketUrl := none }

/-- Environment of one `createNHIFinding` request: the user record
`userService.getById` returns, the process encryption secret, the clock,
and the outcomes of the two outbound Jira calls (refresh and
issue-creation; the latter yields `(issue.key, issue.id)`). -/
structure FindingEnv where
  user        : User
  key         : String
  now         : Nat
  refresh     : Except String JiraTokens
  createIssue : IssueData → Except String (String × String)

/-- The issue-creation tail shared by the fresh-token and refreshed-token
paths. -/
def issueStep (env : FindingEnv) (issueData : IssueData) (siteUrl : String)
    (effs : List Effect) : ApiResponse × List Effect :=
  match env.createIssue issueData with
  | .error e => (findingCatch e, effs ++ [Effect.netCreateIssue issueData])
  | .ok (key, id) =>
    ({ status := 201, error := none, message := none, details := [],
       ticketKey := some key, ticketId := some id,
       ticketUrl := some (siteUrl ++ "/browse/" ++ key) },
     effs ++ [Effect.netCreateIssue issueData])

/-- `createNHIFinding(req, res)` (lines 47–183): validate first and
return 400 with the complete violation list before any storage or network
call; load the user; 400 `Configuration error` when Jira is not
connected; decrypt, refresh when `now >= expiresAt` (persisting the
re-encrypted pair), build the issue payload and send it; errors from the
awaited calls fall into the `catch`.  Returns the HTTP response and the
ordered list of storage/network effects. -/
def createNHIFinding (env : FindingEnv) (body : FindingBody) :
    ApiResponse × List Effect :=
  let validation := validateNHIFinding body
  if validation.isValid then
    let issueData := buildIssueData (getStrField body.projectKey)
      (getStrField body.summary) (getStrField body.description)
      (destructIssueType body.issueType) (destructPriority body.priority)
      (destructLabels body.labels)
    match env.user.jira with
    | none =>
      ({ status := 400, error := some "Configuration error",
         message := some "Jira is not connected for this user. Please connect Jira through the web interface first.",
         details := [], ticketKey := none, ticketId := none,
         ticketUrl := none }, [Effect.dbGetUser])
    | some jiraConfig =>
      match decryptTokens env.key jiraConfig with
      | .error e => (findingCatch e, [Effect.dbGetUser])
      | .ok (_accessToken, _refreshToken, expiresAt) =>
        if expiresAt ≤ env.now then
          match env.refresh with
          | .error e =>
            (findingCatch e, [Effect.dbGetUser, Effect.netRefresh])
          | .ok _newTokens =>
            issueStep env issueData jiraConfig.siteUrl
              [Effect.dbGetUser, Effect.netRefresh, Effect.dbUpdateUser]
        else
          issueStep env issueData jiraConfig.siteUrl [Effect.dbGetUser]
  else
    ({ status := 400, error := some "Validation error",
       message := some "Invalid input data", details := validation.errors,
       ticketKey := none, ticketId := none, ticketUrl := none }, [])

theorem mem_if_singleton {b : Bool} {m msg : String} :
    msg ∈ (if b then [m] else ([] : List String)) ↔ b = true ∧ msg = m := by
  cases b <;> simp

theorem isValid_false_of_mem {data : FindingBody} {msg : String}
    (h : msg ∈ (validateNHIFinding data).errors) :
    (validateNHIFinding data).isValid = false := by
  have hne : (validateNHIFinding data).errors ≠ [] := List.ne_nil_of_mem h
  simp only [validateNHIFinding] at hne ⊢
  simp only [decide_eq_false_iff_not]
  exact fun h0 => hne (List.eq_nil_of_length_eq_zero h0)

/-- **C8.** Malformed input is rejected with status 400, the message
`Invalid input data` and the complete list of violations, before any
storage or network call (no effects); every violated field contributes
its message to that list (all violations at once); in particular a body
with `summary = ""` is rejected with no effects and a violation naming
`summary`; and a well-formed body for a user without a Jira connection is
rejected with the 400 `Configuration error` (tracker-not-connected)
response after only the user lookup, not a 500. -/
theorem finding_validation_and_not_connected
    (env : FindingEnv) (body : FindingBody) :
    ((validateNHIFinding body).isValid = false →
      (createNHIFinding env body).1.status = 400
      ∧ (createNHIFinding env body).1.error = some "Validation error"
      ∧ (createNHIFinding env body).1.details = (validateNHIFinding body).errors
      ∧ (createNHIFinding env body).2 = [])
    ∧ (requiredStringErr body.projectKey = true →
        projectKeyMsg ∈ (validateNHIFinding body).errors)
    ∧ (requiredNonEmptyErr body.summary = true →
        summaryMsg ∈ (validateNHIFinding body).errors)
    ∧ (requiredNonEmptyErr body.description = true →
        descriptionMsg ∈ (validateNHIFinding body).errors)
    ∧ (optionalStringErr body.issueType = true →
        issueTypeMsg ∈ (validateNHIFinding body).errors)
    ∧ (optionalStringErr body.priority = true →
        priorityMsg ∈ (validateNHIFinding body).errors)
    ∧ (labelsErr body.labels = true →
        labelsMsg ∈ (validateNHIFinding body).errors)
    ∧ (body.summary = some (.str "") →
      (createNHIFinding env body).1.status = 400
      ∧ summaryMsg ∈ (createNHIFinding env body).1.details
      ∧ (createNHIFinding env body).2 = [])
    ∧ ((validateNHIFinding body).isValid = true → env.user.jira = none →
      (createNHIFinding env body).1.status = 400
      ∧ (createNHIFinding env body).1.error = some "Configuration error"
      ∧ (createNHIFinding env body).2 = [Effect.dbGetUser]) := by
  have hmemS : requiredNonEmptyErr body.summary = true →
      summaryMsg ∈ (validateNHIFinding body).errors := by
    intro h
    simp [validateNHIFinding, mem_if_singleton, h]
  have hinvalid : (validateNHIFinding body).isValid = false →
      (createNHIFinding env body).1.status = 400
      ∧ (createNHIFinding env body).1.error = some "Validation error"
      ∧ (createNHIFinding env body).1.details = (validateNHIFinding body).errors
      ∧ (createNHIFinding env body).2 = [] := by
    intro h
    simp [createNHIFinding, h]
  refine ⟨hinvalid, ?_, hmemS, ?_, ?_, ?_, ?_, ?_, ?_⟩
  · intro h
    simp [validateNHIFinding, mem_if_singleton, h]
  · intro h
    simp [validateNHIFinding, mem_if_singleton, h]
  · intro h
    simp [validateNHIFinding, mem_if_singleton, h]
  · intro h
    simp [validateNHIFinding, mem_if_singleton, h]
  · intro h
    simp [validateNHIFinding, mem_if_singleton, h]
  · intro hsum
    have herr : requiredNonEmptyErr body.summary = true := by
      rw [hsum]; simp [requiredNonEmptyErr]
    have hmem := hmemS herr
    have hval := isValid_false_of_mem hmem
    have h := hinvalid hval
    exact ⟨h.1, h.2.2.1 ▸ hmem, h.2.2.2⟩
  · intro hvalid hjira
    simp [createNHIFinding, hvalid, hjira]

/-- Witness for `finding_validation_and_not_connected`: empty-summary body
against a disconnected user. -/
theorem finding_validation_and_not_connected_witness :
    (createNHIFinding
      { user := { _id := "u", name := "n", email := "e", jira := none },
        key := "k", now := 0, refresh := .error "no",
        createIssue := fun _ => .error "no" }
      { projectKey := some (.str "PK"), summary := some (.str ""),
        description := some (.str "d"), issueType := none, priority := none,
        labels := none }).1.status = 400 := by
  exact ((finding_validation_and_not_connected
    { user := { _id := "u", name := "n", email := "e", jira := none },
      key := "k", now := 0, refresh := .error "no",
      createIssue := fun _ => .error "no" }
    { projectKey := some (.str "PK"), summary := some (.str ""),
      description := some (.str "d"), issueType := none, priority := none,
      labels := none }).2.2.2.2.2.2.2.1 rfl).1

theorem issueStep_issue_sent (env : FindingEnv) (issueData : IssueData)
    (siteUrl : String) (effs : List Effect)
    (heffs : ∀ d, Effect.netCreateIssue d ∉ effs) :
    ∀ d, Effect.netCreateIssue d ∈ (issueStep env issueData siteUrl effs).2 →
      d = issueData := by
  intro d hd
  unfold issueStep at hd
  rcases h : env.createIssue issueData with e | ki
  · rw [h] at hd
    simp only [List.mem_append, List.mem_singleton] at hd
    rcases hd with hd | hd
    · exact absurd hd (heffs d)
    · exact (Effect.netCreateIssue.injEq ..).mp hd
  · rw [h] at hd
    rcases ki with ⟨k, i⟩
    simp only [List.mem_append, List.mem_singleton] at hd
    rcases hd with hd | hd
    · exact absurd hd (heffs d)
    · exact (Effect.netCreateIssue.injEq ..).mp hd

theorem createNHIFinding_issue_sent (env : FindingEnv) (body : FindingBody) :
    ∀ d, Effect.netCreateIssue d ∈ (createNHIFinding env body).2 →
      d = buildIssueData (getStrField body.projectKey)
            (getStrField body.summary) (getStrField body.description)
            (destructIssueType body.issueType) (destructPriority body.priority)
            (destructLabels body.labels) := by
  intro d hd
  by_cases hv : (validateNHIFinding body).isValid
  · simp only [createNHIFinding, hv, if_true] at hd
    split at hd
    · simp at hd
    · split at hd
      · simp at hd
      · split at hd
        · split at hd
          · simp at hd
          · exact issueStep_issue_sent env _ _ _ (by intro d'; simp) d hd
        · exact issueStep_issue_sent env _ _ _ (by intro d'; simp) d hd
  · simp only [Bool.not_eq_true] at hv
    simp [createNHIFinding, hv] at hd

/-- **C10.** Every issue actually sent to the tracker by
`createNHIFinding` has its issue type defaulted to `Bug` when the caller
omitted `issueType`, and its labels are exactly the caller-supplied labels
followed by the three automatic labels `nhi-finding`, `created-via-api`,
`created-from-identityhub` — so the label list always ends with those
three. -/
theorem finding_issue_defaults_and_labels
    (env : FindingEnv) (body : FindingBody) :
    ∀ d, Effect.netCreateIssue d ∈ (createNHIFinding env body).2 →
      (body.issueType = none → d.issuetypeName = "Bug")
      ∧ d.labels = destructLabels body.labels ++
          ["nhi-finding", "created-via-api", "created-from-identityhub"]
      ∧ (∀ l, body.labels = some (.arr l) →
          d.labels = l ++
            ["nhi-finding", "created-via-api", "created-from-identityhub"]) := by
  intro d hd
  have hdata := createNHIFinding_issue_sent env body d hd
  subst hdata
  refine ⟨?_, rfl, ?_⟩
  · intro hIT
    simp [buildIssueData, hIT, destructIssueType]
  · intro l hl
    simp [buildIssueData, hl, destructLabels]

/-- Connected user for the finding witnesses. -/
def connectedEnvUser : User :=
  { _id := "u", name := "n", email := "e", jira := some sampleJiraCfg }

/-- Environment of a concrete successful finding request. -/
def sampleFindingEnv : FindingEnv :=
  { user := connectedEnvUser, key := "k", now := 900,
    refresh := .error "no", createIssue := fun _ => .ok ("NHI-1", "10001") }

/-- Body of a concrete successful finding request: `issueType` omitted,
one caller label. -/
def sampleFindingBody : FindingBody :=
  { projectKey := some (.str "PK"), summary := some (.str "s"),
    description := some (.str "d"), issueType := none, priority := none,
    labels := some (.arr ["caller-label"]) }

/-- Witness for `finding_issue_defaults_and_labels`, applied to the issue
the concrete run sends. -/
theorem finding_issue_defaults_and_labels_witness :
    (buildIssueData "PK" "s" "d" "Bug" none ["caller-label"]).issuetypeName
        = "Bug"
    ∧ (buildIssueData "PK" "s" "d" "Bug" none ["caller-label"]).labels
        = ["caller-label"] ++
          ["nhi-finding", "created-via-api", "created-from-identityhub"] := by
  have h := finding_issue_defaults_and_labels sampleFindingEnv sampleFindingBody
    (buildIssueData "PK" "s" "d" "Bug" none ["caller-label"]) (by decide)
  exact ⟨h.1 rfl, h.2.2 ["caller-label"] rfl⟩
